import Mathlib

/-!
A shallow embedding of hupper's reloader module (`src/hupper/reloader.py`):
the file-monitor change signal (`FileMonitorProxy`), the worker process
wrapper (`Worker`), the supervisor restart loop (`Reloader.run`,
`Reloader.run_once`, `Reloader._run_worker`), and the worker-side proxy
accessors (`ReloaderProxy`, `get_reloader`, `is_active`), together with
theorems settling the specification claims about them.
-/

namespace Hupper

/-- The log line printed by `FileMonitorProxy.file_changed` for a newly
seen path: `'%s changed; reloading ...' % (path,)`. -/
def changedMsg (path : String) : String := path ++ " changed; reloading ..."

/-- State of `FileMonitorProxy`: the `change_event` flag, the set of
`changed_paths` (a Python `set`, modelled as a list to which a path is added
only after a membership test), the verbosity level and the lines printed so
far via `out`. -/
structure FileMonitorProxy where
  verbose : Nat
  change_event : Bool
  changed_paths : List String
  log : List String
deriving DecidableEq, Repr

namespace FileMonitorProxy

/-- State after `FileMonitorProxy.__init__`: flag unset, path set empty. -/
def init (verbose : Nat) : FileMonitorProxy :=
  { verbose := verbose, change_event := false, changed_paths := [], log := [] }

/-- Model of `FileMonitorProxy.out`: print `msg` when `verbose > 0`. -/
def out (s : FileMonitorProxy) (msg : String) : FileMonitorProxy :=
  if s.verbose > 0 then { s with log := s.log ++ [msg] } else s

/-- One iteration of the loop body of `file_changed`: a path already in
`changed_paths` is skipped; otherwise the event is set, the path added and
the "changed; reloading" line printed. -/
def fileChangedStep (s : FileMonitorProxy) (path : String) : FileMonitorProxy :=
  if path ∈ s.changed_paths then s
  else
    out { s with change_event := true, changed_paths := path :: s.changed_paths }
      (changedMsg path)

/-- Model of `FileMonitorProxy.file_changed`: iterate `fileChangedStep` over
`sorted(paths)` (the whole body runs under `self.lock`). -/
def file_changed (s : FileMonitorProxy) (paths : List String) : FileMonitorProxy :=
  (paths.mergeSort (fun a b => decide (a ≤ b))).foldl fileChangedStep s

/-- Model of `FileMonitorProxy.is_changed`. -/
def is_changed (s : FileMonitorProxy) : Bool := s.change_event

/-- Model of `FileMonitorProxy.clear_changes`: clear the flag and the path
set together, under the lock. -/
def clear_changes (s : FileMonitorProxy) : FileMonitorProxy :=
  { s with change_event := false, changed_paths := [] }

end FileMonitorProxy

/-- An externally observable mutating call on the monitor proxy's change
state: a `file_changed` callback batch or a `clear_changes` call. -/
inductive MonOp where
  | fileChanged (paths : List String)
  | clearChanges
deriving DecidableEq, Repr

/-- Apply one `MonOp` to the proxy state. -/
def applyOp (s : FileMonitorProxy) : MonOp → FileMonitorProxy
  | .fileChanged paths => s.file_changed paths
  | .clearChanges => s.clear_changes

/-- Run a sequence of callbacks and clears from the freshly constructed
proxy state. -/
def applyOps (verbose : Nat) (ops : List MonOp) : FileMonitorProxy :=
  ops.foldl applyOp (FileMonitorProxy.init verbose)

/-- State of a started `Worker`: the duplicated stdin descriptor, the
parent's pipe endpoint (present until released), the `terminated` flag, the
child pid, the captured `exitcode`, plus the underlying
`multiprocessing.Process` — whether it is currently alive and the exit code
it reports once joined. -/
structure Worker where
  stdin_fd : Option Nat
  pipe : Option Unit
  terminated : Bool
  pid : Nat
  exitcode : Option Int
  processAlive : Bool
  processExitcode : Int
deriving DecidableEq, Repr

namespace Worker

/-- Worker as produced by `Worker.__init__` followed by `Worker.start`:
`terminated = False`, `exitcode = None`, `stdin_fd` duplicated, parent pipe
endpoint open. `alive` is the liveness the process will report at the next
`is_alive` check and `pexit` the exit code it reports once reaped. -/
def started (pid fd : Nat) (alive : Bool) (pexit : Int) : Worker :=
  { stdin_fd := some fd, pipe := some (), terminated := false, pid := pid,
    exitcode := none, processAlive := alive, processExitcode := pexit }

/-- Model of `Worker.is_alive` (a started worker always has a process). -/
def is_alive (w : Worker) : Bool := w.processAlive

/-- Model of `Worker.terminate`: set `terminated` and signal the process;
the death itself is asynchronous and observed by the subsequent `join`. -/
def terminate (w : Worker) : Worker := { w with terminated := true }

/-- Model of `Worker.join`: the source calls `self.process.join()` without
forwarding `timeout`, which blocks until the process has exited, so the
guard `self.process.is_alive()` sees a dead process; then the exit code is
captured and the duplicated stdin descriptor and the pipe endpoint are
released (each close guarded by a `None` test and followed by setting the
field to `None`). -/
def join (w : Worker) (timeout : Option Rat) : Worker :=
  let w1 := { w with processAlive := false }
  if w1.processAlive then w1
  else
    let w2 := { w1 with exitcode := some w1.processExitcode }
    let w3 := if w2.stdin_fd.isSome then { w2 with stdin_fd := none } else w2
    if w3.pipe.isSome then { w3 with pipe := none } else w3

end Worker

/-- Observations made by one iteration of the inner loop of
`Reloader._run_worker`: what `monitor.is_changed()`, `worker.is_alive()`,
`worker.pipe.poll(0)` and `files_queue.get(timeout=reload_interval)` return
on that iteration (a `none` queue item is a `queue.Empty` timeout). -/
structure CycleObs where
  changed : Bool
  alive : Bool
  pipeData : Bool
  queueItem : Option String
deriving DecidableEq, Repr

/-- An observation on which the inner loop of `_run_worker` stops: the
change signal fired, the worker died, or the control pipe has data. -/
def isTrigger (o : CycleObs) : Bool := o.changed || !o.alive || o.pipeData

/-- How the inner loop of `_run_worker` ended: the `while` condition became
false (change signal fired or worker died), the `break` on control-pipe
data ran, or the supplied observations were exhausted with the loop still
running. -/
inductive LoopExit where
  | signal
  | pipeBreak
  | exhausted
deriving DecidableEq, Repr

/-- Abstract trace events emitted during one restart cycle. -/
inductive Ev where
  | workerStart
  | addChild (pid : Nat)
  | clearChanges
  | addPath (p : String)
  | killLog (pid : Nat)
  | terminateWorker
  | joinWorker
  | exitLog (pid : Nat) (code : Int)
deriving DecidableEq, Repr

/-- The inner loop of `Reloader._run_worker` driven by a finite list of
per-iteration observations: while the signal is unchanged and the worker
alive, break on pipe data, otherwise forward a dequeued path to
`monitor.add_path` and continue. Returns the `add_path` events and the way
the loop ended. -/
def innerLoop : List CycleObs → List Ev × LoopExit
  | [] => ([], .exhausted)
  | o :: rest =>
    if o.changed || !o.alive then ([], .signal)
    else if o.pipeData then ([], .pipeBreak)
    else
      match o.queueItem with
      | some p =>
        let r := innerLoop rest
        (Ev.addPath p :: r.1, r.2)
      | none => innerLoop rest

/-- Result of one `_run_worker` cycle: the event trace, the final state of
the (now discarded) worker object, the returned `force_exit` flag, and how
the inner loop ended. -/
structure CycleResult where
  events : List Ev
  worker : Worker
  forceExit : Bool
  loopExit : LoopExit
deriving DecidableEq, Repr

/-- Model of `Reloader._run_worker` over one cycle: start a fresh worker,
register its pid with the process group, print the start line, clear the
change signal, run the inner loop; then, in the `finally` block, a
still-alive worker is terminated and joined (with the kill line printed)
while a dead one is joined and its exit code reported; the change signal is
cleared again and `worker.terminated` is returned. `finalAlive` is what
`worker.is_alive()` returns at the `finally` check; `procExit` is the exit
code the child process reports when reaped. -/
def runWorkerCycle (pid fd : Nat) (obs : List CycleObs) (finalAlive : Bool)
    (procExit : Int) : CycleResult :=
  let w := Worker.started pid fd finalAlive procExit
  let r := innerLoop obs
  let pre := Ev.workerStart :: Ev.addChild pid :: Ev.clearChanges :: r.1
  if w.is_alive then
    let w1 := (w.terminate).join none
    { events := pre ++ [Ev.killLog pid, Ev.terminateWorker, Ev.joinWorker,
        Ev.clearChanges],
      worker := w1, forceExit := w1.terminated, loopExit := r.2 }
  else
    let w1 := w.join none
    { events := pre ++ [Ev.joinWorker, Ev.exitLog pid (w1.exitcode.getD 0),
        Ev.clearChanges],
      worker := w1, forceExit := w1.terminated, loopExit := r.2 }

/-- Model of the debounce sleep between outer-loop cycles:
`debounce = self.reload_interval - (time.time() - start)` followed by
`if debounce > 0: time.sleep(debounce)`; `none` means no sleep happens. -/
def debounceSleep (reload_interval elapsed : Rat) : Option Rat :=
  let debounce := reload_interval - elapsed
  if debounce > 0 then some debounce else none

/-- Environment data for one outer-loop iteration of `Reloader.run`: the
inputs of its `_run_worker` cycle and the wall-clock duration the cycle
took. -/
structure CycleInput where
  pid : Nat
  fd : Nat
  obs : List CycleObs
  finalAlive : Bool
  procExit : Int
  elapsed : Rat
deriving DecidableEq

/-- Observable events of the outer loop of `run`. -/
inductive RunEv where
  | cycle (r : CycleResult)
  | waitForChanges
  | sleep (d : Rat)
deriving DecidableEq

/-- One iteration of the outer `while True` loop of `Reloader.run`: run a
cycle, enter `_wait_for_changes` only when `_run_worker` returned false,
then sleep off the remaining debounce interval when it is positive. -/
def runStep (reload_interval : Rat) (c : CycleInput) : List RunEv :=
  let r := runWorkerCycle c.pid c.fd c.obs c.finalAlive c.procExit
  RunEv.cycle r ::
    ((if r.forceExit then [] else [RunEv.waitForChanges]) ++
      (match debounceSleep reload_interval c.elapsed with
       | some d => [RunEv.sleep d]
       | none => []))

/-- One step of the infinite `while True` loop of `run`: either the body
completes with the given environment data, or a `KeyboardInterrupt` arrives
during it. -/
inductive OuterStep where
  | complete (c : CycleInput)
  | keyboardInterrupt
deriving DecidableEq

/-- Trace of the `try` block of `Reloader.run`: `some trace` when a
`KeyboardInterrupt` ends the `while True` loop within the given steps,
`none` when the steps run out with the loop still running (the loop has no
normal exit). -/
def runLoopTrace (reload_interval : Rat) : List OuterStep → Option (List RunEv)
  | [] => none
  | .keyboardInterrupt :: _ => some []
  | .complete c :: rest =>
    (runLoopTrace reload_interval rest).map
      (fun t => runStep reload_interval c ++ t)

/-- How a call to `run` or `run_once` ends: terminating its own process via
`sys.exit`, returning normally to the caller, or still looping. -/
inductive RunResult where
  | sysExit (code : Nat)
  | returns
  | running
deriving DecidableEq, Repr

namespace Reloader

/-- Model of `Reloader.run`: the outer loop exits only by exception; a
`KeyboardInterrupt` is caught and discarded, the monitor is stopped in the
`finally` block, and then `sys.exit(1)` ends the process — the method never
returns normally. -/
def run (reload_interval : Rat) (steps : List OuterStep) : RunResult :=
  match runLoopTrace reload_interval steps with
  | some _ => .sysExit 1
  | none => .running

/-- Model of `Reloader.run_once`: a single `_run_worker` call inside
`try/except KeyboardInterrupt: return`; both the normal path and the
interrupt path return normally and no path calls `sys.exit`. -/
def run_once (step : OuterStep) : RunResult :=
  match step with
  | .complete _ => .returns
  | .keyboardInterrupt => .returns

end Reloader

/-- State of a worker-side `ReloaderProxy`: the path-report queue contents
and the bytes the worker has written to its end of the control pipe. -/
structure ReloaderProxy where
  files_queue : List String
  pipe : List UInt8
deriving DecidableEq, Repr

namespace ReloaderProxy

/-- Model of `ReloaderProxy.watch_files`: put each file on the queue. -/
def watch_files (pr : ReloaderProxy) (files : List String) : ReloaderProxy :=
  { pr with files_queue := pr.files_queue ++ files }

/-- Model of `ReloaderProxy.trigger_reload`:
`self.pipe.send_bytes(b'1')` — one byte written to the control pipe. -/
def trigger_reload (pr : ReloaderProxy) : ReloaderProxy :=
  { pr with pipe := pr.pipe ++ [49] }

end ReloaderProxy

/-- Model of `Connection.poll(0)` on the supervisor's end of the control
pipe: data is available exactly when the worker has sent bytes that were
not yet consumed. -/
def pipePoll (sent : List UInt8) : Bool := !sent.isEmpty

/-- Model of `get_reloader`: raise
`RuntimeError('process is not controlled by hupper')` when the module-level
`_reloader_proxy` is unset, else return it. -/
def get_reloader (proxy : Option ReloaderProxy) : Except String ReloaderProxy :=
  match proxy with
  | none => .error "process is not controlled by hupper"
  | some p => .ok p

/-- Model of `is_active`: call `get_reloader`, returning `false` on the
`RuntimeError` and `true` otherwise. -/
def is_active (proxy : Option ReloaderProxy) : Bool :=
  match get_reloader proxy with
  | .error _ => false
  | .ok _ => true

/-! ## Lemmas about the change signal -/

theorem out_change_event (s : FileMonitorProxy) (m : String) :
    (s.out m).change_event = s.change_event := by
  unfold FileMonitorProxy.out; split <;> rfl

theorem out_changed_paths (s : FileMonitorProxy) (m : String) :
    (s.out m).changed_paths = s.changed_paths := by
  unfold FileMonitorProxy.out; split <;> rfl

theorem fileChangedStep_inv (s : FileMonitorProxy) (p : String)
    (h : s.change_event = true ↔ s.changed_paths ≠ []) :
    (FileMonitorProxy.fileChangedStep s p).change_event = true ↔
      (FileMonitorProxy.fileChangedStep s p).changed_paths ≠ [] := by
  unfold FileMonitorProxy.fileChangedStep
  split
  · exact h
  · simp [out_change_event, out_changed_paths]

theorem foldl_fileChangedStep_inv (l : List String) (s : FileMonitorProxy)
    (h : s.change_event = true ↔ s.changed_paths ≠ []) :
    (l.foldl FileMonitorProxy.fileChangedStep s).change_event = true ↔
      (l.foldl FileMonitorProxy.fileChangedStep s).changed_paths ≠ [] := by
  induction l generalizing s with
  | nil => exact h
  | cons a t ih => exact ih _ (fileChangedStep_inv s a h)

theorem file_changed_inv (s : FileMonitorProxy) (batch : List String)
    (h : s.change_event = true ↔ s.changed_paths ≠ []) :
    (s.file_changed batch).change_event = true ↔
      (s.file_changed batch).changed_paths ≠ [] :=
  foldl_fileChangedStep_inv _ s h

theorem applyOp_inv (s : FileMonitorProxy) (op : MonOp)
    (h : s.change_event = true ↔ s.changed_paths ≠ []) :
    (applyOp s op).change_event = true ↔ (applyOp s op).changed_paths ≠ [] := by
  cases op with
  | fileChanged paths => exact file_changed_inv s paths h
  | clearChanges => simp [applyOp, FileMonitorProxy.clear_changes]

theorem applyOps_inv (v : Nat) (ops : List MonOp) :
    (applyOps v ops).change_event = true ↔ (applyOps v ops).changed_paths ≠ [] := by
  have init : (FileMonitorProxy.init v).change_event = true ↔
      (FileMonitorProxy.init v).changed_paths ≠ [] := by
    simp [FileMonitorProxy.init]
  unfold applyOps
  generalize FileMonitorProxy.init v = s at init
  induction ops generalizing s with
  | nil => exact init
  | cons op rest ih => exact ih _ (applyOp_inv s op init)

theorem fileChangedStep_event_mono (s : FileMonitorProxy) (p : String)
    (h : s.change_event = true) :
    (FileMonitorProxy.fileChangedStep s p).change_event = true := by
  unfold FileMonitorProxy.fileChangedStep
  split
  · exact h
  · simp [out_change_event]

theorem foldl_event_mono (l : List String) (s : FileMonitorProxy)
    (h : s.change_event = true) :
    (l.foldl FileMonitorProxy.fileChangedStep s).change_event = true := by
  induction l generalizing s with
  | nil => exact h
  | cons a t ih => exact ih _ (fileChangedStep_event_mono s a h)

theorem fileChangedStep_event_of_not_mem (s : FileMonitorProxy) (p : String)
    (h : p ∉ s.changed_paths) :
    (FileMonitorProxy.fileChangedStep s p).change_event = true := by
  unfold FileMonitorProxy.fileChangedStep
  rw [if_neg h]
  simp [out_change_event]

theorem fileChangedStep_not_mem (s : FileMonitorProxy) (p q : String)
    (hpq : q ≠ p) (h : p ∉ s.changed_paths) :
    p ∉ (FileMonitorProxy.fileChangedStep s q).changed_paths := by
  unfold FileMonitorProxy.fileChangedStep
  split
  · exact h
  · simp only [out_changed_paths, List.mem_cons]
    push_neg
    exact ⟨fun e => hpq e.symm, h⟩

theorem foldl_event_of_mem (l : List String) (s : FileMonitorProxy) (p : String)
    (hp : p ∈ l) (hnot : p ∉ s.changed_paths) :
    (l.foldl FileMonitorProxy.fileChangedStep s).change_event = true := by
  induction l generalizing s with
  | nil => cases hp
  | cons a t ih =>
    by_cases hap : a = p
    · subst hap
      exact foldl_event_mono t _ (fileChangedStep_event_of_not_mem s a hnot)
    · rcases List.mem_cons.mp hp with h1 | h1
      · exact absurd h1.symm hap
      · exact ih _ h1 (fileChangedStep_not_mem s p a hap hnot)

/-- C1: for the change signal, after any sequence of `file_changed` callbacks
and `clear_changes` calls the `change_event` flag is set iff `changed_paths`
is non-empty; after `clear_changes` both are empty regardless of prior
state; and a `file_changed` batch containing a path not already in the set
leaves the flag set. -/
theorem C1_change_event_iff_nonempty :
    (∀ (v : Nat) (ops : List MonOp),
        (applyOps v ops).change_event = true ↔ (applyOps v ops).changed_paths ≠ [])
    ∧ (∀ s : FileMonitorProxy,
        s.clear_changes.change_event = false ∧ s.clear_changes.changed_paths = [])
    ∧ (∀ (s : FileMonitorProxy) (batch : List String) (p : String),
        p ∈ batch → p ∉ s.changed_paths →
        (s.file_changed batch).change_event = true) := by
  refine ⟨applyOps_inv, fun s => ⟨rfl, rfl⟩, fun s batch p hp hnot => ?_⟩
  exact foldl_event_of_mem _ s p (List.mem_mergeSort.mpr hp) hnot

/-- Witness for C1: the third conjunct applied to the fresh proxy and the
batch `["a"]`. -/
theorem C1_change_event_iff_nonempty_witness :
    ("a" ∈ ["a"] ∧ "a" ∉ (FileMonitorProxy.init 1).changed_paths)
    ∧ ((FileMonitorProxy.init 1).file_changed ["a"]).change_event = true :=
  ⟨⟨by decide, by decide⟩,
    C1_change_event_iff_nonempty.2.2 _ ["a"] "a" (by decide) (by decide)⟩

theorem changedMsg_inj {p q : String} (h : changedMsg p = changedMsg q) :
    p = q := by
  have hd := congrArg String.data h
  simp only [changedMsg, String.data_append] at hd
  exact String.ext (List.append_cancel_right hd)

theorem fileChangedStep_nodup (s : FileMonitorProxy) (q : String)
    (h : s.changed_paths.Nodup) :
    (FileMonitorProxy.fileChangedStep s q).changed_paths.Nodup := by
  unfold FileMonitorProxy.fileChangedStep
  split
  · exact h
  next hmem => simpa [out_changed_paths] using ⟨hmem, h⟩

theorem count_log_fileChangedStep (c0 : Nat) (p : String) (s : FileMonitorProxy)
    (q : String)
    (h : s.log.count (changedMsg p) ≤
      c0 + (if p ∈ s.changed_paths then 1 else 0)) :
    (FileMonitorProxy.fileChangedStep s q).log.count (changedMsg p) ≤
      c0 + (if p ∈ (FileMonitorProxy.fileChangedStep s q).changed_paths
            then 1 else 0) := by
  unfold FileMonitorProxy.fileChangedStep
  split
  · exact h
  next hmem =>
    unfold FileMonitorProxy.out
    by_cases hq : q = p
    · subst hq
      rw [if_neg hmem] at h
      split
      · simp only [List.count_append, List.mem_cons]
        have : (s.log.count (changedMsg q)) + [changedMsg q].count (changedMsg q)
            ≤ c0 + 1 := by
          have h1 : [changedMsg q].count (changedMsg q) ≤ 1 := by
            simp [List.count_singleton]
          omega
        simpa using this
      · simp only [List.mem_cons]
        have : s.log.count (changedMsg q) ≤ c0 + 1 := le_trans h (by omega)
        simpa using this
    · have hne : (changedMsg q == changedMsg p) = false := by
        rw [beq_eq_false_iff_ne]
        exact fun e => hq (changedMsg_inj e)
      have hmm : (p ∈ q :: s.changed_paths) ↔ p ∈ s.changed_paths := by
        simp only [List.mem_cons]
        constructor
        · rintro (rfl | hx)
          · exact absurd rfl hq
          · exact hx
        · exact Or.inr
      split
      · simp only [List.count_append, List.count_cons, List.count_nil, hne,
          if_false, hmm]
        simpa using h
      · simpa [hmm] using h

theorem count_log_foldl (c0 : Nat) (p : String) (l : List String)
    (s : FileMonitorProxy)
    (h : s.log.count (changedMsg p) ≤
      c0 + (if p ∈ s.changed_paths then 1 else 0))
    (hnd : s.changed_paths.Nodup) :
    ((l.foldl FileMonitorProxy.fileChangedStep s).log.count (changedMsg p) ≤
      c0 + (if p ∈ (l.foldl FileMonitorProxy.fileChangedStep s).changed_paths
            then 1 else 0))
    ∧ (l.foldl FileMonitorProxy.fileChangedStep s).changed_paths.Nodup := by
  induction l generalizing s with
  | nil => exact ⟨h, hnd⟩
  | cons a t ih =>
    exact ih _ (count_log_fileChangedStep c0 p s a h) (fileChangedStep_nodup s a hnd)

theorem count_log_batches (c0 : Nat) (p : String) (bs : List (List String))
    (s : FileMonitorProxy)
    (h : s.log.count (changedMsg p) ≤
      c0 + (if p ∈ s.changed_paths then 1 else 0))
    (hnd : s.changed_paths.Nodup) :
    ((bs.foldl FileMonitorProxy.file_changed s).log.count (changedMsg p) ≤
      c0 + (if p ∈ (bs.foldl FileMonitorProxy.file_changed s).changed_paths
            then 1 else 0))
    ∧ (bs.foldl FileMonitorProxy.file_changed s).changed_paths.Nodup := by
  induction bs generalizing s with
  | nil => exact ⟨h, hnd⟩
  | cons b t ih =>
    have step := count_log_foldl c0 p (b.mergeSort (fun a b => decide (a ≤ b))) s h hnd
    exact ih _ step.1 step.2

/-- C6: between two `clear_changes` calls, a path delivered several times
(in one batch or across batches) produces at most one "changed; reloading"
log line and is counted in `changed_paths` at most once. -/
theorem C6_duplicate_path_once (s : FileMonitorProxy)
    (batches : List (List String)) (p : String) :
    ((batches.foldl FileMonitorProxy.file_changed s.clear_changes).log.count
        (changedMsg p)
      ≤ (s.clear_changes).log.count (changedMsg p) + 1)
    ∧ (batches.foldl FileMonitorProxy.file_changed s.clear_changes).changed_paths.count p
      ≤ 1 := by
  have h0 : (s.clear_changes).log.count (changedMsg p) ≤
      (s.clear_changes).log.count (changedMsg p) +
        (if p ∈ (s.clear_changes).changed_paths then 1 else 0) := by
    simp [FileMonitorProxy.clear_changes]
  have hnd : (s.clear_changes).changed_paths.Nodup := by
    simp [FileMonitorProxy.clear_changes]
  have main := count_log_batches ((s.clear_changes).log.count (changedMsg p)) p
    batches s.clear_changes h0 hnd
  refine ⟨le_trans main.1 ?_, List.nodup_iff_count_le_one.mp main.2 p⟩
  split <;> omega

/-! ## Lemmas about the worker wrapper -/

theorem Worker.join_eq (w : Worker) (t : Option Rat) :
    Worker.join w t =
      { w with
          processAlive := false, exitcode := some w.processExitcode,
          stdin_fd := none, pipe := none } := by
  unfold Worker.join
  cases h1 : w.stdin_fd <;> cases h2 : w.pipe <;> simp [h1, h2]

/-- C10: `Worker.join` ignores its timeout argument — the underlying
`process.join()` is called with no timeout, so the process has always
exited afterwards, the early-return branch for a timed-out join is never
taken, and the exit code is always captured. -/
theorem C10_join_ignores_timeout :
    ∀ (w : Worker) (t t2 : Option Rat),
      Worker.join w t = Worker.join w t2
      ∧ (Worker.join w t).processAlive = false
      ∧ (Worker.join w t).exitcode = some w.processExitcode := by
  intro w t t2
  rw [Worker.join_eq, Worker.join_eq]
  exact ⟨rfl, rfl, rfl⟩

/-- C7: after `Worker.join` returns, `stdin_fd` and `pipe` are both
released, and a repeated `join` is a no-op on the worker state. -/
theorem C7_join_releases_descriptors :
    ∀ (w : Worker) (t t2 : Option Rat),
      (Worker.join w t).stdin_fd = none
      ∧ (Worker.join w t).pipe = none
      ∧ Worker.join (Worker.join w t) t2 = Worker.join w t := by
  intro w t t2
  simp [Worker.join_eq]

/-- C8: `get_reloader` returns the installed proxy when one is present and
raises the `RuntimeError` when not; `is_active` never raises and returns
`true` exactly when a proxy is installed. -/
theorem C8_get_reloader_is_active :
    (∀ x : ReloaderProxy, get_reloader (some x) = Except.ok x)
    ∧ get_reloader none = Except.error "process is not controlled by hupper"
    ∧ (∀ p : Option ReloaderProxy, is_active p = p.isSome) := by
  refine ⟨fun x => rfl, rfl, fun p => ?_⟩
  cases p <;> rfl

/-! ## Lemmas about the restart cycle -/

theorem innerLoop_cons (o : CycleObs) (rest : List CycleObs) :
    innerLoop (o :: rest) =
      if o.changed || !o.alive then ([], LoopExit.signal)
      else if o.pipeData then ([], LoopExit.pipeBreak)
      else match o.queueItem with
        | some p => (Ev.addPath p :: (innerLoop rest).1, (innerLoop rest).2)
        | none => innerLoop rest := rfl

theorem innerLoop_events_addPath (obs : List CycleObs) :
    ∀ e ∈ (innerLoop obs).1, ∃ p, e = Ev.addPath p := by
  induction obs with
  | nil => intro e he; simp [innerLoop] at he
  | cons o rest ih =>
    intro e he
    rw [innerLoop_cons] at he
    split at he
    · simp at he
    · split at he
      · simp at he
      · cases hq : o.queueItem with
        | some p =>
          simp only [hq] at he
          rcases List.mem_cons.mp he with h1 | h1
          · exact ⟨p, h1⟩
          · exact ih e h1
        | none =>
          simp only [hq] at he
          exact ih e he

theorem innerLoop_not_exhausted (obs : List CycleObs)
    (h : ∃ o ∈ obs, isTrigger o = true) :
    (innerLoop obs).2 ≠ LoopExit.exhausted := by
  induction obs with
  | nil => simp at h
  | cons o rest ih =>
    rw [innerLoop_cons]
    by_cases h1 : (o.changed || !o.alive) = true
    · rw [if_pos h1]; simp
    · rw [if_neg h1]
      by_cases h2 : o.pipeData = true
      · rw [if_pos h2]; simp
      · rw [if_neg h2]
        have hrest : ∃ x ∈ rest, isTrigger x = true := by
          rcases h with ⟨x, hx, htr⟩
          rcases List.mem_cons.mp hx with rfl | hx'
          · exfalso
            unfold isTrigger at htr
            simp only [Bool.or_eq_true] at htr
            rcases htr with (hh | hh) | hh
            · exact h1 (by simp [hh])
            · exact h1 (by simp [hh])
            · exact h2 hh
          · exact ⟨x, hx', htr⟩
        cases hq : o.queueItem with
        | some p => simpa using ih hrest
        | none => exact ih hrest

theorem runWorkerCycle_dead (pid fd : Nat) (obs : List CycleObs) (procExit : Int) :
    runWorkerCycle pid fd obs false procExit =
      { events := Ev.workerStart :: Ev.addChild pid :: Ev.clearChanges ::
          ((innerLoop obs).1 ++ [Ev.joinWorker, Ev.exitLog pid procExit,
            Ev.clearChanges]),
        worker := ⟨none, none, false, pid, some procExit, false, procExit⟩,
        forceExit := false, loopExit := (innerLoop obs).2 } := by
  simp [runWorkerCycle, Worker.started, Worker.is_alive, Worker.join_eq]

theorem runWorkerCycle_alive (pid fd : Nat) (obs : List CycleObs) (procExit : Int) :
    runWorkerCycle pid fd obs true procExit =
      { events := Ev.workerStart :: Ev.addChild pid :: Ev.clearChanges ::
          ((innerLoop obs).1 ++ [Ev.killLog pid, Ev.terminateWorker,
            Ev.joinWorker, Ev.clearChanges]),
        worker := ⟨none, none, true, pid, some procExit, false, procExit⟩,
        forceExit := true, loopExit := (innerLoop obs).2 } := by
  simp [runWorkerCycle, Worker.started, Worker.is_alive, Worker.terminate,
    Worker.join_eq]

theorem no_exitLog_in_innerLoop (obs : List CycleObs) (q : Nat) (c : Int) :
    Ev.exitLog q c ∉ (innerLoop obs).1 := by
  intro hmem
  rcases innerLoop_events_addPath obs _ hmem with ⟨p, hp⟩
  cases hp

theorem clear_not_in_innerLoop (obs : List CycleObs) :
    Ev.clearChanges ∉ (innerLoop obs).1 := by
  intro hmem
  rcases innerLoop_events_addPath obs _ hmem with ⟨p, hp⟩
  cases hp

/-- C2: whenever at least one of the three triggers (change signal fired,
worker died, data or end-of-stream on the control pipe) occurs among the
observations, the inner loop of the cycle does not run out, and the cycle
reports either a worker exit code (the "exited with code" line, with
`force_exit = false`) or the forced-termination flag (`force_exit = true`,
with no exit-code line) — never both. -/
theorem C2_cycle_outcome (pid fd : Nat) (obs : List CycleObs)
    (finalAlive : Bool) (procExit : Int)
    (h : ∃ o ∈ obs, isTrigger o = true) :
    (runWorkerCycle pid fd obs finalAlive procExit).loopExit ≠ LoopExit.exhausted
    ∧ ((∃ q c, Ev.exitLog q c ∈
          (runWorkerCycle pid fd obs finalAlive procExit).events)
        ↔ (runWorkerCycle pid fd obs finalAlive procExit).forceExit = false) := by
  have hne := innerLoop_not_exhausted obs h
  constructor
  · cases finalAlive
    · rw [runWorkerCycle_dead]; exact hne
    · rw [runWorkerCycle_alive]; exact hne
  · cases finalAlive
    · rw [runWorkerCycle_dead]
      refine iff_of_true ⟨pid, procExit, ?_⟩ rfl
      simp
    · rw [runWorkerCycle_alive]
      refine iff_of_false ?_ (by simp)
      rintro ⟨q, c, hmem⟩
      simp only [List.mem_cons, List.mem_append] at hmem
      rcases hmem with h1 | h1 | h1 | h1 | h1
      · cases h1
      · cases h1
      · cases h1
      · exact no_exitLog_in_innerLoop obs q c h1
      · simp at h1

/-- Witness for C2: the cycle over a single changed-signal observation with
a dead worker. -/
theorem C2_cycle_outcome_witness :
    (∃ o ∈ [CycleObs.mk true true false none], isTrigger o = true)
    ∧ ((runWorkerCycle 7 3 [CycleObs.mk true true false none] false 0).loopExit
        ≠ LoopExit.exhausted
      ∧ ((∃ q c, Ev.exitLog q c ∈
            (runWorkerCycle 7 3 [CycleObs.mk true true false none] false 0).events)
          ↔ (runWorkerCycle 7 3 [CycleObs.mk true true false none] false 0).forceExit
              = false)) :=
  ⟨by decide, C2_cycle_outcome 7 3 _ false 0 (by decide)⟩

/-- C4 counterexample: in a concrete cycle (no loop iterations, worker
already dead) the change signal is cleared twice, not exactly once. -/
theorem C4_counterexample :
    ¬ List.count Ev.clearChanges (runWorkerCycle 5 3 [] false 0).events = 1 := by
  decide

/-- C4 amended: `clear_changes` is called exactly twice per `_run_worker`
cycle — once immediately after the new worker is started (before the
monitoring loop) and once at the very end of the cycle, after the worker's
outcome is known (after the join) and before any next worker starts. -/
theorem C4_clear_changes_twice (pid fd : Nat) (obs : List CycleObs)
    (finalAlive : Bool) (procExit : Int) :
    List.count Ev.clearChanges
        (runWorkerCycle pid fd obs finalAlive procExit).events = 2
    ∧ ∃ mid, (runWorkerCycle pid fd obs finalAlive procExit).events =
          Ev.workerStart :: Ev.addChild pid :: Ev.clearChanges ::
            (mid ++ [Ev.clearChanges])
        ∧ Ev.clearChanges ∉ mid ∧ Ev.joinWorker ∈ mid := by
  have hclear := clear_not_in_innerLoop obs
  cases finalAlive
  · rw [runWorkerCycle_dead]
    refine ⟨?_, (innerLoop obs).1 ++ [Ev.joinWorker, Ev.exitLog pid procExit],
      ?_, ?_, ?_⟩
    · simp [List.count_cons, List.count_append, List.count_eq_zero.mpr hclear]
    · simp
    · simp [hclear]
    · simp
  · rw [runWorkerCycle_alive]
    refine ⟨?_, (innerLoop obs).1 ++ [Ev.killLog pid, Ev.terminateWorker,
      Ev.joinWorker], ?_, ?_, ?_⟩
    · simp [List.count_cons, List.count_append, List.count_eq_zero.mpr hclear]
    · simp
    · simp [hclear]
    · simp

/-- C3 counterexample: when the still-alive worker has put the
`trigger_reload` byte on the control pipe, the cycle ends with the worker's
`terminated` flag true — not false as the claim states. -/
theorem C3_counterexample :
    ¬ (runWorkerCycle 5 3 [CycleObs.mk false true true none]
        true 0).worker.terminated = false := by
  decide

theorem runWorkerCycle_alive_forceExit (pid fd : Nat) (obs : List CycleObs)
    (procExit : Int) :
    (runWorkerCycle pid fd obs true procExit).forceExit = true := by
  rw [runWorkerCycle_alive]

/-- C3 amended: a `trigger_reload` byte makes the control pipe poll true;
with the pipe holding data the inner loop ends at that very iteration
(within one path-queue poll interval); the still-alive worker is then
terminated by the supervisor, so `terminated` is true, `_run_worker`
returns true, and the outer loop therefore spawns the next worker without
entering the wait-for-changes (debounce) phase. -/
theorem C3_trigger_reload (pr : ReloaderProxy) (pid fd : Nat) (o : CycleObs)
    (rest : List CycleObs) (procExit : Int) (ri elapsed : Rat)
    (hchanged : o.changed = false) (halive : o.alive = true)
    (hpipe : o.pipeData = true) :
    pipePoll (pr.trigger_reload).pipe = true
    ∧ innerLoop (o :: rest) = ([], LoopExit.pipeBreak)
    ∧ (runWorkerCycle pid fd (o :: rest) true procExit).worker.terminated = true
    ∧ (runWorkerCycle pid fd (o :: rest) true procExit).forceExit = true
    ∧ RunEv.waitForChanges ∉
        runStep ri (CycleInput.mk pid fd (o :: rest) true procExit elapsed) := by
  refine ⟨?_, ?_, ?_, ?_, ?_⟩
  · simp [pipePoll, ReloaderProxy.trigger_reload]
  · rw [innerLoop_cons, hchanged, halive, hpipe]
    simp
  · rw [runWorkerCycle_alive]
  · exact runWorkerCycle_alive_forceExit pid fd (o :: rest) procExit
  · have hforce := runWorkerCycle_alive_forceExit pid fd (o :: rest) procExit
    simp only [runStep] at hforce ⊢
    rw [hforce]
    cases hdeb : debounceSleep ri elapsed with
    | none => simp [hdeb]
    | some d => simp [hdeb]

/-- Witness for C3: the scenario at concrete inputs. -/
theorem C3_trigger_reload_witness :
    ((CycleObs.mk false true true none).changed = false
      ∧ (CycleObs.mk false true true none).alive = true
      ∧ (CycleObs.mk false true true none).pipeData = true)
    ∧ (pipePoll ((ReloaderProxy.mk [] []).trigger_reload).pipe = true
      ∧ innerLoop (CycleObs.mk false true true none :: []) = ([], LoopExit.pipeBreak)
      ∧ (runWorkerCycle 1 0 (CycleObs.mk false true true none :: [])
          true 0).worker.terminated = true
      ∧ (runWorkerCycle 1 0 (CycleObs.mk false true true none :: [])
          true 0).forceExit = true
      ∧ RunEv.waitForChanges ∉
          runStep 1 (CycleInput.mk 1 0 (CycleObs.mk false true true none :: [])
            true 0 0)) :=
  ⟨⟨rfl, rfl, rfl⟩,
    C3_trigger_reload (ReloaderProxy.mk [] []) 1 0
      (CycleObs.mk false true true none) [] 0 1 0 rfl rfl rfl⟩

/-! ## Lemmas about the outer run loop -/

theorem runLoopTrace_none_iff (ri : Rat) (steps : List OuterStep) :
    runLoopTrace ri steps = none ↔ OuterStep.keyboardInterrupt ∉ steps := by
  induction steps with
  | nil => simp [runLoopTrace]
  | cons s rest ih =>
    cases s with
    | complete c => simp [runLoopTrace, ih]
    | keyboardInterrupt => simp [runLoopTrace]

/-- C5: whenever the outer loop of `run` exits — which happens exactly when
a `KeyboardInterrupt` arrives — `run` terminates its own process with exit
status 1; `run` never returns normally to its caller on any input; and
`run_once` returns normally after one cycle or on interrupt, without
forcing any exit status. -/
theorem C5_run_exit_status :
    (∀ (ri : Rat) (steps : List OuterStep),
        OuterStep.keyboardInterrupt ∈ steps →
        Reloader.run ri steps = RunResult.sysExit 1)
    ∧ (∀ (ri : Rat) (steps : List OuterStep),
        Reloader.run ri steps ≠ RunResult.returns)
    ∧ (∀ st : OuterStep, Reloader.run_once st = RunResult.returns) := by
  refine ⟨fun ri steps hmem => ?_, fun ri steps => ?_, fun st => ?_⟩
  · unfold Reloader.run
    cases htr : runLoopTrace ri steps with
    | none => exact absurd hmem ((runLoopTrace_none_iff ri steps).mp htr)
    | some t => rfl
  · unfold Reloader.run
    cases htr : runLoopTrace ri steps with
    | none => simp
    | some t => simp
  · cases st <;> rfl

/-- Witness for C5: a session interrupted immediately exits with status 1. -/
theorem C5_run_exit_status_witness :
    OuterStep.keyboardInterrupt ∈ [OuterStep.keyboardInterrupt]
    ∧ Reloader.run 1 [OuterStep.keyboardInterrupt] = RunResult.sysExit 1 :=
  ⟨by simp, C5_run_exit_status.1 1 [OuterStep.keyboardInterrupt] (by simp)⟩

/-- C9: between consecutive cycles the outer loop sleeps exactly
`reload_interval - elapsed` when that quantity is positive and does not
sleep at all when it is zero or negative: a sleep event of duration `d`
appears in the outer-loop iteration trace iff `d = reload_interval -
elapsed` and that difference is positive. -/
theorem C9_debounce_sleep (ri : Rat) (c : CycleInput) (d : Rat) :
    RunEv.sleep d ∈ runStep ri c ↔ (d = ri - c.elapsed ∧ 0 < ri - c.elapsed) := by
  unfold runStep debounceSleep
  by_cases hpos : 0 < ri - c.elapsed
  · rw [if_pos hpos]
    constructor
    · intro hmem
      simp only [List.mem_cons, List.mem_append] at hmem
      rcases hmem with h1 | h2 | h3 | h4
      · cases h1
      · revert h2; split <;> simp
      · simp only [RunEv.sleep.injEq] at h3
        exact ⟨h3, hpos⟩
      · simp at h4
    · rintro ⟨rfl, _⟩
      simp
  · rw [if_neg hpos]
    refine iff_of_false ?_ (fun hc => hpos hc.2)
    intro hmem
    simp only [List.mem_cons, List.mem_append] at hmem
    rcases hmem with h1 | h2 | h3
    · cases h1
    · revert h2; split <;> simp
    · simp at h3

end Hupper
